import Mathlib

/-!
Verification of the periodic check-in document engine in `run.py`
(repository `Hyerin-oh/check-in-bot`).

The Python source is shallowly embedded: strings are `List Char`
(abbreviated `Str`), Python exceptions are the `PyError` type together
with `Except PyError`, the process clock (`datetime.now` /
`datetime.today`) is passed explicitly, the two network collaborators
(the Notion user directory and the page-creation call) are passed as
functions, and `random.choice` takes an explicit random index.
-/

namespace Checkin

/-- Strings of the embedded program: Python `str` values are modelled as
lists of characters so that splitting and concatenation can be reasoned
about directly. -/
abbrev Str := List Char

/-- Python exceptions that the engine in `run.py` can raise:
`ValueError` (tuple unpacking in `parse_url`, `int(...)`, `strptime`),
`KeyError` (a name missing from the user dictionary), `IndexError`
(`random.choice` on an empty sequence), and `AssertionError` (the
config-key asserts in `main`). -/
inductive PyError where
  | valueError
  | keyError
  | indexError
  | assertionError
deriving DecidableEq, Repr

/-- Rendering of a decimal digit, as used by Python string formatting. -/
def digitChar : Nat → Char
  | 0 => '0' | 1 => '1' | 2 => '2' | 3 => '3' | 4 => '4'
  | 5 => '5' | 6 => '6' | 7 => '7' | 8 => '8' | _ => '9'

/-- Decimal rendering of a natural number with explicit fuel (the fuel
`n + 1` always suffices); structural recursion keeps it kernel-reducible. -/
def natToStrAux : Nat → Nat → Str
  | 0, _ => []
  | fuel + 1, n =>
    if n < 10 then [digitChar n]
    else natToStrAux fuel (n / 10) ++ [digitChar (n % 10)]

/-- Decimal rendering of a natural number (Python `f"{n}"`). -/
def natToStr (n : Nat) : Str := natToStrAux (n + 1) n

/-- Decimal rendering of an integer (Python `f"{i}"` for an `int`). -/
def intToStr (i : Int) : Str :=
  if i < 0 then '-' :: natToStr i.natAbs else natToStr i.toNat

/-- Numeric value of a digit character (used to read digit strings). -/
def dval (c : Char) : Nat := c.toNat - 48

/-- Value of a nonempty all-digit string, `none` otherwise. -/
def digitsVal (s : Str) : Option Nat :=
  if !s.isEmpty && s.all (fun c => c.isDigit) then
    some (s.foldl (fun a c => a * 10 + dval c) 0)
  else none

/-- Model of Python `int(s)` on the strings this program feeds it: an
optional sign followed by a nonempty run of decimal digits; anything
else raises `ValueError`, modelled as `none`.  (Python additionally
tolerates surrounding whitespace and inner underscores; those forms are
not exercised by this program.) -/
def pyInt? (s : Str) : Option Int :=
  match s with
  | [] => none
  | c :: rest =>
    if c = '-' then (digitsVal rest).map (fun m => -(m : Int))
    else if c = '+' then (digitsVal rest).map (fun m => (m : Int))
    else (digitsVal (c :: rest)).map (fun m => (m : Int))

/-- Model of Python `s.split(sep)` for a nonempty separator `sep`:
scan left to right, cutting at each non-overlapping occurrence of
`sep`.  `acc` holds the current chunk reversed; the fuel is always at
least `s.length` when called through `pySplit`, so the fuel-exhausted
clause is never reached there. -/
def splitAuxF (sep : Str) : Nat → Str → Str → List Str
  | _, [], acc => [acc.reverse]
  | 0, s, acc => [acc.reverse ++ s]
  | fuel + 1, c :: rest, acc =>
    if sep.isPrefixOf (c :: rest) then
      acc.reverse :: splitAuxF sep fuel (List.drop (sep.length - 1) rest) []
    else
      splitAuxF sep fuel rest (c :: acc)

/-- Python `s.split(sep)` for nonempty `sep`. -/
def pySplit (sep s : Str) : List Str := splitAuxF sep s.length s []

/-- The hard-coded default `prefix` argument of `parse_url`. -/
def urlBase : Str := "https://www.notion.so/".toList

/-- `parse_url` from `run.py` (lines 23-26): split the url on the
Notion base url and unpack into exactly two pieces, split the remainder
on `"-"` and unpack into exactly eight pieces, return the first piece
and the seventh converted with `int(...)`.  A failed unpacking or a
failed `int(...)` is Python's `ValueError`, modelled as `none`. -/
def parse_url (url : Str) : Option (Str × Int) :=
  match pySplit urlBase url with
  | [_, value] =>
    match pySplit ['-'] value with
    | [checkin_day, _, _, _, _, _, index, _] =>
      (pyInt? index).map (fun i => (checkin_day, i))
    | _ => none
  | _ => none

/-- Calendar dates, for the `datetime.date` values the engine handles. -/
structure Date where
  year : Nat
  month : Nat
  day : Nat
deriving DecidableEq, Repr

/-- Gregorian leap-year rule. -/
def isLeap (y : Nat) : Bool :=
  (y % 4 == 0 && y % 100 != 0) || y % 400 == 0

/-- Days in a month of the Gregorian calendar. -/
def daysInMonth (y m : Nat) : Nat :=
  if m == 2 then (if isLeap y then 29 else 28)
  else if m == 4 || m == 6 || m == 9 || m == 11 then 30
  else 31

/-- The calendar successor of a date. -/
def nextDay (dt : Date) : Date :=
  if dt.day < daysInMonth dt.year dt.month then ⟨dt.year, dt.month, dt.day + 1⟩
  else if dt.month < 12 then ⟨dt.year, dt.month + 1, 1⟩
  else ⟨dt.year + 1, 1, 1⟩

/-- Adding `n` calendar days (`timedelta(weeks=1)` is `addDays 7`). -/
def addDays : Nat → Date → Date
  | 0, dt => dt
  | n + 1, dt => addDays n (nextDay dt)

/-- Two-digit zero-padded rendering (`strftime` `%y`, `%m`, `%d`). -/
def pad2 (n : Nat) : Str := if n < 10 then '0' :: natToStr n else natToStr n

/-- Four-digit zero-padded rendering (`strftime` `%Y`). -/
def pad4 (n : Nat) : Str :=
  if n < 10 then '0' :: '0' :: '0' :: natToStr n
  else if n < 100 then '0' :: '0' :: natToStr n
  else if n < 1000 then '0' :: natToStr n
  else natToStr n

/-- Model of `datetime.strptime(s, "%y%m%d")`: six digits, two-digit
year mapped into 1969-2068 as Python does, month and day validated
against the calendar; a mismatch raises `ValueError`, modelled `none`. -/
def parseDate6 (s : Str) : Option Date :=
  match s with
  | [a, b, c, d, e, f] =>
    if a.isDigit && b.isDigit && c.isDigit && d.isDigit && e.isDigit && f.isDigit then
      let yy := dval a * 10 + dval b
      let mm := dval c * 10 + dval d
      let dd := dval e * 10 + dval f
      let y := if yy ≤ 68 then 2000 + yy else 1900 + yy
      if 1 ≤ mm && mm ≤ 12 && 1 ≤ dd && dd ≤ daysInMonth y mm then
        some ⟨y, mm, dd⟩
      else none
    else none
  | _ => none

/-- `strftime("%y%m%d")`. -/
def fmt6 (dt : Date) : Str := pad2 (dt.year % 100) ++ pad2 dt.month ++ pad2 dt.day

/-- `strftime("%Y-%m-%d")`. -/
def fmtISO (dt : Date) : Str := pad4 dt.year ++ '-' :: (pad2 dt.month ++ '-' :: pad2 dt.day)

/-- `get_period` from `run.py` (lines 16-20): quarter label of the
current run date, `f"{year}년 {period}분기"` with
`period = floor((month - 1) / 3) + 1`.  The clock is the explicit
`today` argument. -/
def get_period (today : Date) : Str :=
  natToStr today.year ++ "년 ".toList ++
    natToStr ((today.month - 1) / 3 + 1) ++ "분기".toList

/-- Model of `random.choice(seq)` with an injected random index `r`:
any element of `seq` can be drawn by a suitable `r`; on an empty
sequence Python raises `IndexError`, modelled as `none`. -/
def randomChoice (r : Nat) (l : List α) : Option α := l.get? (r % l.length)

/-- The most recent check-in record as consumed from the document
service response in `check_already_made`: `created_time` is the parsed
creation timestamp in seconds, `url` is `results[0]["url"]`, and
`quarter_id` is `results[0]["properties"]["Quarter"]["id"]`. -/
structure LatestRec where
  created_time : Int
  url : Str
  quarter_id : Str
deriving DecidableEq, Repr

/-- The 5-tuple returned by `check_already_made`:
`(made, latest_checkin_day, latest_index, latest_quater, latest_url)`,
with `None` modelled as `none`. -/
structure CheckRes where
  made : Bool
  day : Option Str
  index : Option Int
  quarter : Option Str
  url : Option Str
deriving DecidableEq, Repr

/-- `check_already_made` from `run.py` (lines 81-106), with the network
fetch of the latest record replaced by the explicit `latest` argument
and the clock by `now` (seconds).  `(datetime.today() -
latest_created_time).days` floors the difference, hence `Int.fdiv` by
86400. -/
def check_already_made (latest : Option LatestRec) (day_threshold : Int) (now : Int) :
    Except PyError CheckRes :=
  match latest with
  | none => .ok ⟨false, none, none, none, none⟩
  | some lr =>
    if (now - lr.created_time).fdiv 86400 < day_threshold then
      .ok ⟨true, none, none, none, some lr.url⟩
    else
      match parse_url lr.url with
      | none => .error .valueError
      | some (d, i) => .ok ⟨false, some d, some i, some lr.quarter_id, none⟩

/-- The per-team configuration fields after the `assert`s in `main`
have checked that every required key is present. -/
structure TeamFields where
  channel_id : Str
  team_name : Str
  base_title : Str
  host : Str
  participation : List Str
  blacklist : List Str
deriving DecidableEq, Repr

/-- A raw `team_cfg` dictionary: `none` models an absent key. -/
structure TeamCfg where
  channel_id : Option Str
  team_name : Option Str
  base_title : Option Str
  host : Option Str
  participation : Option (List Str)
  blacklist : Option (List Str)
deriving DecidableEq, Repr

/-- A team config in which every required key is present. -/
def mkTeamCfg (f : TeamFields) : TeamCfg :=
  ⟨some f.channel_id, some f.team_name, some f.base_title, some f.host,
   some f.participation, some f.blacklist⟩

/-- The `assert key in team_cfg.keys()` loop in `main` (lines 192-193):
any missing required key raises `AssertionError` before the team is
processed. -/
def requireFields (t : TeamCfg) : Except PyError TeamFields :=
  match t.channel_id, t.team_name, t.base_title, t.host, t.participation, t.blacklist with
  | some a, some b, some c, some d, some e, some f => .ok ⟨a, b, c, d, e, f⟩
  | _, _, _, _, _, _ => .error .assertionError

/-- The new-page title built at line 134 of `run.py`:
`f"[{day6}] {base_title}{newIndex}"`. -/
def mkTitle (base_title day6 : Str) (newIndex : Int) : Str :=
  '[' :: (day6 ++ ']' :: ' ' :: (base_title ++ intToStr newIndex))

/-- The payload assembled by `create_pages` (the fields of the Notion
`properties` object that the engine itself computes). -/
structure PagePayload where
  title : Str
  date_start : Str
  quarter : Str
  host_id : Str
  attendee_ids : List Str
  scribe_id : Str
  tags : List Str
  meeting_type : List Str
deriving DecidableEq, Repr

/-- `create_pages` from `run.py` (lines 109-162), with the user
directory (`make_person_dict`) passed as `ud`, the clock as `now`, and
the random draw as `r`.  The steps follow the source order:
`candidate_name_list = list(set(participation) - set(blacklist))` (the
host is NOT removed), the id lookups, `strptime(latest_checkin_day,
"%y%m%d") + timedelta(weeks=1)`, the title, and the payload whose
`Quarter` is `get_period()` (computed from the run date; the
`latest_quater` argument is never used). -/
def create_pages (ud : Str → Option Str) (team : TeamFields) (latest_checkin_day : Str)
    (latest_index : Int) (latest_quater : Str) (now : Date) (r : Nat) :
    Except PyError PagePayload :=
  let candidate_name_list :=
    (team.participation.eraseDups).filter (fun n => !team.blacklist.contains n)
  match candidate_name_list.mapM ud with
  | none => .error .keyError
  | some candidate_id_list =>
    match parseDate6 latest_checkin_day with
    | none => .error .valueError
    | some d0 =>
      let check_in_day := addDays 7 d0
      let title := mkTitle team.base_title (fmt6 check_in_day) (latest_index + 1)
      match ud team.host with
      | none => .error .keyError
      | some host_id =>
        match team.participation.mapM ud with
        | none => .error .keyError
        | some attendee_ids =>
          match randomChoice r candidate_id_list with
          | none => .error .indexError
          | some scribe_id =>
            .ok { title := title
                  date_start := fmtISO check_in_day
                  quarter := get_period now
                  host_id := host_id
                  attendee_ids := attendee_ids
                  scribe_id := scribe_id
                  tags := ["OKR".toList, team.team_name]
                  meeting_type := ["Check-in".toList] }

/-- Python truthiness of an `Optional[str]`. -/
def truthyS : Option Str → Bool
  | none => false
  | some s => !s.isEmpty

/-- Python truthiness of an `Optional[int]`. -/
def truthyI : Option Int → Bool
  | none => false
  | some i => i != 0

/-- The Slack message sent after a page was created (line 203). -/
def createdMsg (team_name new_page_url : Str) : Str :=
  "이번 주 ".toList ++ team_name ++
    " 체크인 문서입니다. template을 클릭해 작성해주세요!\n".toList ++ new_page_url

/-- The Slack message sent when a recent document already exists (line 211). -/
def skipMsg (team_name latest_url : Str) : Str :=
  "이번 주 ".toList ++ team_name ++
    " 체크인 문서는 별도로 생성되지 않았습니다.\n".toList ++ latest_url

/-- The Slack message sent when no prior document was found (line 219). -/
def manualMsg (base_title : Str) : Str :=
  base_title ++
    "와 같은 제목을 가진 체크인 문서가 존재하지 않습니다. 첫 체크인 문서는 수동으로 만들어주세요.".toList

/-- The observable outcome of one loop iteration of `main`: either a
page was created and announced, or the recent document was announced,
or the channel was asked to create the first document manually. -/
inductive TeamAction where
  | created (payload : PagePayload) (msg : Str)
  | skippedRecent (msg : Str)
  | firstManual (msg : Str)
deriving DecidableEq, Repr

/-- One iteration of the team loop in `main` (lines 190-221): the
config asserts, `check_already_made`, then the
`if all([latest_checkin_day, latest_index, latest_quater]) / elif
latest_url / else` dispatch.  `pp` models the page-creation
collaborator returning the new page url. -/
def processTeam (ud : Str → Option Str) (pp : PagePayload → Str) (day_threshold : Int)
    (cfg : TeamCfg) (doc : Option LatestRec) (now_ts : Int) (now_date : Date) (r : Nat) :
    Except PyError TeamAction :=
  match requireFields cfg with
  | .error e => .error e
  | .ok team =>
    match check_already_made doc day_threshold now_ts with
    | .error e => .error e
    | .ok chk =>
      if truthyS chk.day && truthyI chk.index && truthyS chk.quarter then
        match create_pages ud team (chk.day.getD []) (chk.index.getD 0)
            (chk.quarter.getD []) now_date r with
        | .error e => .error e
        | .ok payload => .ok (.created payload (createdMsg team.team_name (pp payload)))
      else if truthyS chk.url then
        .ok (.skippedRecent (skipMsg team.team_name (chk.url.getD [])))
      else
        .ok (.firstManual (manualMsg team.base_title))

/-- The inputs one loop iteration consumes: the team's raw config, the
document-service response for that team, and the random draw. -/
structure TeamInput where
  cfg : TeamCfg
  doc : Option LatestRec
  r : Nat
deriving DecidableEq, Repr

/-- The team loop of `main`: teams are processed in order, collecting
each team's outcome; there is no `try`/`except` around the body, so an
exception propagates and aborts the remaining iterations. -/
def main_loop (ud : Str → Option Str) (pp : PagePayload → Str) (day_threshold : Int)
    (now_ts : Int) (now_date : Date) : List TeamInput → Except PyError (List TeamAction)
  | [] => .ok []
  | t :: ts =>
    match processTeam ud pp day_threshold t.cfg t.doc now_ts now_date t.r with
    | .error e => .error e
    | .ok a =>
      match main_loop ud pp day_threshold now_ts now_date ts with
      | .error e => .error e
      | .ok rest => .ok (a :: rest)

/-- Separator-joined concatenation of string chunks (used only to
describe url slugs and split inputs in specification statements). -/
def interc (sep : Str) : List Str → Str
  | [] => []
  | [p] => p
  | p :: ps => p ++ sep ++ interc sep ps

/-- Modelled from the spec: the document-service collaborator (Notion)
is what turns a created page into its record url; `run.py` assumes that
url is the base url followed by a dash-separated slug of exactly eight
tokens (date token, five title tokens, sequence index, page id).  This
url formation is external to the repository and is modelled here only
so the codec claims can be stated. -/
def notionUrl (tokens : List Str) : Str := urlBase ++ interc ['-'] tokens

/-- Modelled from the spec: the eligible scribe pool
`attendees − exclusions − {host}` named by the specification (§4.4),
to be compared with the pool the code actually draws from. -/
def specScribePool (team : TeamFields) : List Str :=
  ((team.participation.eraseDups).filter (fun n => !team.blacklist.contains n)).filter
    (fun n => n ≠ team.host)

/-! ### Decimal rendering lemmas -/

/-- Each rendered digit is a decimal digit character. -/
theorem isDigit_digitChar (n : Nat) (h : n < 10) : (digitChar n).isDigit = true := by
  match n, h with
  | 0, _ | 1, _ | 2, _ | 3, _ | 4, _ | 5, _ | 6, _ | 7, _ | 8, _ | 9, _ => decide

/-- Reading back a rendered digit gives the digit. -/
theorem dval_digitChar (n : Nat) (h : n < 10) : dval (digitChar n) = n := by
  match n, h with
  | 0, _ | 1, _ | 2, _ | 3, _ | 4, _ | 5, _ | 6, _ | 7, _ | 8, _ | 9, _ => decide

theorem natToStrAux_ne_nil (fuel n : Nat) (h : n < fuel) : natToStrAux fuel n ≠ [] := by
  induction fuel generalizing n with
  | zero => omega
  | succ fuel ih =>
    rw [natToStrAux]
    by_cases h10 : n < 10
    · simp [h10]
    · have : n / 10 < fuel := by omega
      simp only [if_neg h10]
      intro hcontra
      exact absurd (List.append_eq_nil.mp hcontra).2 (by simp)

theorem natToStrAux_all_digit (fuel n : Nat) (h : n < fuel) :
    ∀ c ∈ natToStrAux fuel n, c.isDigit = true := by
  induction fuel generalizing n with
  | zero => omega
  | succ fuel ih =>
    rw [natToStrAux]
    by_cases h10 : n < 10
    · simp only [if_pos h10, List.mem_singleton]
      intro c hc; subst hc; exact isDigit_digitChar n h10
    · have hlt : n / 10 < fuel := by
        have := Nat.div_lt_self (by omega : 0 < n) (by omega : 1 < 10)
        omega
      simp only [if_neg h10, List.mem_append, List.mem_singleton]
      rintro c (hc | rfl)
      · exact ih (n / 10) hlt c hc
      · exact isDigit_digitChar (n % 10) (Nat.mod_lt n (by omega))

theorem natToStr_ne_nil (n : Nat) : natToStr n ≠ [] :=
  natToStrAux_ne_nil (n + 1) n (Nat.lt_succ_self n)

theorem natToStr_all_digit (n : Nat) : ∀ c ∈ natToStr n, c.isDigit = true :=
  natToStrAux_all_digit (n + 1) n (Nat.lt_succ_self n)

/-- A digit character is neither a dash nor a colon nor a sign. -/
theorem isDigit_ne (c : Char) (h : c.isDigit = true) :
    c ≠ '-' ∧ c ≠ ':' ∧ c ≠ '+' := by
  refine ⟨?_, ?_, ?_⟩ <;> · rintro rfl; simp at h

theorem foldl_natToStrAux (fuel n a : Nat) (h : n < fuel) :
    (natToStrAux fuel n).foldl (fun a c => a * 10 + dval c) a =
      a * 10 ^ (natToStrAux fuel n).length + n := by
  induction fuel generalizing n a with
  | zero => omega
  | succ fuel ih =>
    rw [natToStrAux]
    by_cases h10 : n < 10
    · simp [if_pos h10, dval_digitChar n h10]
    · have hlt : n / 10 < fuel := by
        have := Nat.div_lt_self (by omega : 0 < n) (by omega : 1 < 10)
        omega
      simp only [if_neg h10, List.foldl_append, List.foldl_cons, List.foldl_nil,
        List.length_append, List.length_singleton]
      rw [ih (n / 10) a hlt, dval_digitChar (n % 10) (Nat.mod_lt n (by omega))]
      have : 10 ^ ((natToStrAux fuel (n / 10)).length + 1) =
          10 ^ (natToStrAux fuel (n / 10)).length * 10 := by
        rw [pow_succ]
      rw [this]
      have hdm : n % 10 + 10 * (n / 10) = n := Nat.mod_add_div n 10
      ring_nf
      omega

/-- `digitsVal` reads back `natToStr`. -/
theorem digitsVal_natToStr (n : Nat) : digitsVal (natToStr n) = some n := by
  have hne := natToStr_ne_nil n
  have hall := natToStr_all_digit n
  rw [digitsVal]
  have h1 : (natToStr n).isEmpty = false := by
    cases hs : natToStr n with
    | nil => exact absurd hs hne
    | cons a l => simp
  have h2 : (natToStr n).all (fun c => c.isDigit) = true := List.all_eq_true.mpr hall
  rw [h1, h2]
  simp only [Bool.not_false, Bool.and_self, if_pos]
  rw [natToStr, foldl_natToStrAux (n + 1) n 0 (Nat.lt_succ_self n)]
  simp

/-- Python `int` reads back the decimal rendering of a natural number. -/
theorem pyInt?_natToStr (n : Nat) : pyInt? (natToStr n) = some (n : Int) := by
  cases hs : natToStr n with
  | nil => exact absurd hs (natToStr_ne_nil n)
  | cons c rest =>
    have hc : c.isDigit = true := by
      have := natToStr_all_digit n
      rw [hs] at this
      exact this c (by simp)
    obtain ⟨hdash, _, hplus⟩ := isDigit_ne c hc
    rw [pyInt?, if_neg hdash, if_neg hplus, ← hs, digitsVal_natToStr n]
    rfl

/-! ### Splitting lemmas -/

/-- The fuel of `splitAuxF` does not matter as long as it covers the
length of the string being split. -/
theorem splitAuxF_fuel (sep : Str) :
    ∀ (f g : Nat) (s acc : Str), s.length ≤ f → s.length ≤ g →
      splitAuxF sep f s acc = splitAuxF sep g s acc := by
  intro f
  induction f with
  | zero =>
    intro g s acc hf _
    have hs : s = [] := List.eq_nil_of_length_eq_zero (by omega)
    subst hs
    cases g <;> simp [splitAuxF]
  | succ f' ih =>
    intro g s acc hf hg
    match s with
    | [] => cases g <;> simp [splitAuxF]
    | c :: rest =>
      match g, hg with
      | g' + 1, hg =>
        simp only [splitAuxF]
        by_cases hp : sep.isPrefixOf (c :: rest)
        · simp only [if_pos hp]
          have hlen : (List.drop (sep.length - 1) rest).length ≤ rest.length := by
            simp [List.length_drop]
          have hf' : rest.length ≤ f' := by simp at hf; omega
          have hg' : rest.length ≤ g' := by simp at hg; omega
          rw [ih g' (List.drop (sep.length - 1) rest) [] (le_trans hlen hf')
            (le_trans hlen hg')]
        · simp only [if_neg hp]
          have hf' : rest.length ≤ f' := by simp at hf; omega
          have hg' : rest.length ≤ g' := by simp at hg; omega
          exact ih g' rest (c :: acc) hf' hg'

/-- If some character of `sep` never occurs in `s`, then `sep` matches
nowhere and the scan accumulates the whole of `s` into one chunk. -/
theorem splitAuxF_not_mem (sep : Str) (x : Char) (hx : x ∈ sep) :
    ∀ (s : Str) (f : Nat) (acc : Str), x ∉ s →
      splitAuxF sep f s acc = [acc.reverse ++ s] := by
  intro s
  induction s with
  | nil => intro f acc _; cases f <;> simp [splitAuxF]
  | cons c rest ih =>
    intro f acc hmem
    cases f with
    | zero => simp [splitAuxF]
    | succ f' =>
      have hp : sep.isPrefixOf (c :: rest) = false := by
        apply Bool.eq_false_iff.mpr
        intro hcontra
        exact hmem ((List.isPrefixOf_iff_prefix.mp hcontra).subset hx)
      simp only [splitAuxF, hp, Bool.false_eq_true, if_false]
      rw [ih f' (c :: acc) (fun h => hmem (List.mem_cons_of_mem c h))]
      simp

/-- Splitting `sep ++ rest` on `sep` when `sep` occurs nowhere in
`rest`: one split at the very front. -/
theorem pySplit_append_sep (sep rest : Str) (x : Char) (hx : x ∈ sep) (hrest : x ∉ rest) :
    pySplit sep (sep ++ rest) = [[], rest] := by
  match sep, hx with
  | c :: sep', hx =>
    have hform : (c :: sep') ++ rest = c :: (sep' ++ rest) := rfl
    rw [pySplit, hform]
    have hlen : (c :: (sep' ++ rest)).length = (sep' ++ rest).length + 1 := by simp
    rw [hlen]
    have hp : (c :: sep').isPrefixOf (c :: (sep' ++ rest)) = true := by
      rw [List.isPrefixOf_iff_prefix]
      exact ⟨rest, rfl⟩
    simp only [splitAuxF, hp, if_true]
    have hdrop : List.drop ((c :: sep').length - 1) (sep' ++ rest) = rest := by
      simp only [List.length_cons, Nat.add_sub_cancel]
      exact List.drop_left sep' rest
    rw [hdrop, splitAuxF_not_mem (c :: sep') x hx rest _ [] hrest]
    simp

/-- Splitting on a single character that heads a chunk boundary:
`p ++ c :: s` splits into `p` and then the splitting of `s`. -/
theorem splitAuxF_char_cons (c : Char) :
    ∀ (p : Str) (f : Nat) (acc s : Str), (p ++ c :: s).length ≤ f → c ∉ p →
      splitAuxF [c] f (p ++ c :: s) acc =
        (acc.reverse ++ p) :: splitAuxF [c] s.length s [] := by
  intro p
  induction p with
  | nil =>
    intro f acc s hf _
    simp only [List.nil_append] at hf ⊢
    match f, hf with
    | f' + 1, hf =>
      have hp : ([c]).isPrefixOf (c :: s) = true := by
        rw [List.isPrefixOf_iff_prefix]
        exact ⟨s, rfl⟩
      simp only [splitAuxF, hp, if_true, List.length_singleton, Nat.sub_self,
        List.drop_zero, List.append_nil]
      rw [splitAuxF_fuel [c] f' s.length s [] (by simp at hf; omega) (le_refl _)]
  | cons a p' ih =>
    intro f acc s hf hmem
    have ha : a ≠ c := by
      intro h; subst h; exact hmem (List.mem_cons_self a p')
    have hmem' : c ∉ p' := fun h => hmem (List.mem_cons_of_mem a h)
    have hform : (a :: p') ++ c :: s = a :: (p' ++ c :: s) := rfl
    rw [hform] at hf ⊢
    match f, hf with
    | f' + 1, hf =>
      have hp : ([c]).isPrefixOf (a :: (p' ++ c :: s)) = false := by
        apply Bool.eq_false_iff.mpr
        intro hcontra
        obtain ⟨t, ht⟩ := List.isPrefixOf_iff_prefix.mp hcontra
        exact ha (by injection ht with h1 _; exact h1.symm)
      simp only [splitAuxF, hp, Bool.false_eq_true, if_false]
      rw [ih f' (a :: acc) s (by simp at hf ⊢; omega) hmem']
      simp

/-- `pySplit` on a single character, chunk-boundary form. -/
theorem pySplit_char_cons (c : Char) (p s : Str) (hp : c ∉ p) :
    pySplit [c] (p ++ c :: s) = p :: pySplit [c] s := by
  rw [pySplit, pySplit, splitAuxF_char_cons c p _ [] s (le_refl _) hp]
  simp

/-- `pySplit` on a single character that does not occur: one chunk. -/
theorem pySplit_single (c : Char) (s : Str) (h : c ∉ s) : pySplit [c] s = [s] := by
  rw [pySplit, splitAuxF_not_mem [c] c (by simp) s _ [] h]
  simp

/-- A character occurring in a separator-joined concatenation occurs in
the separator or in one of the parts. -/
theorem mem_interc (sep : Str) (parts : List Str) (x : Char) (hx : x ∈ interc sep parts) :
    x ∈ sep ∨ ∃ p ∈ parts, x ∈ p := by
  induction parts with
  | nil => simp [interc] at hx
  | cons p ps ih =>
    cases ps with
    | nil =>
      simp only [interc] at hx
      exact Or.inr ⟨p, by simp, hx⟩
    | cons q qs =>
      simp only [interc, List.mem_append] at hx
      rcases hx with (hx | hx) | hx
      · exact Or.inr ⟨p, by simp, hx⟩
      · exact Or.inl hx
      · rcases ih hx with hs | ⟨r, hr, hxr⟩
        · exact Or.inl hs
        · exact Or.inr ⟨r, List.mem_cons_of_mem _ hr, hxr⟩

/-- What `parse_url` computes on a url of the eight-token slug shape the
code assumes: it returns the first token together with the `int` value
of the seventh, with no validation of the tokens themselves. -/
theorem parse_url_tokens (d t1 t2 t3 t4 t5 ix pid : Str)
    (h : ∀ t ∈ [d, t1, t2, t3, t4, t5, ix, pid], ('-') ∉ t ∧ (':') ∉ t) :
    parse_url (notionUrl [d, t1, t2, t3, t4, t5, ix, pid]) =
      (pyInt? ix).map (fun i => (d, i)) := by
  have e : interc ['-'] [d, t1, t2, t3, t4, t5, ix, pid] =
      d ++ '-' :: (t1 ++ '-' :: (t2 ++ '-' :: (t3 ++ '-' :: (t4 ++ '-' ::
        (t5 ++ '-' :: (ix ++ '-' :: pid)))))) := by
    simp [interc, List.append_assoc]
  have hcolon : (':') ∉ interc ['-'] [d, t1, t2, t3, t4, t5, ix, pid] := by
    intro hc
    rcases mem_interc _ _ _ hc with hs | ⟨p, hp, hcp⟩
    · simp at hs
    · exact (h p hp).2 hcp
  have hsplit : pySplit ['-'] (interc ['-'] [d, t1, t2, t3, t4, t5, ix, pid]) =
      [d, t1, t2, t3, t4, t5, ix, pid] := by
    rw [e,
      pySplit_char_cons '-' d _ (h d (by simp)).1,
      pySplit_char_cons '-' t1 _ (h t1 (by simp)).1,
      pySplit_char_cons '-' t2 _ (h t2 (by simp)).1,
      pySplit_char_cons '-' t3 _ (h t3 (by simp)).1,
      pySplit_char_cons '-' t4 _ (h t4 (by simp)).1,
      pySplit_char_cons '-' t5 _ (h t5 (by simp)).1,
      pySplit_char_cons '-' ix _ (h ix (by simp)).1,
      pySplit_single '-' pid (h pid (by simp)).1]
  have h1 : parse_url (notionUrl [d, t1, t2, t3, t4, t5, ix, pid]) =
      match pySplit ['-'] (interc ['-'] [d, t1, t2, t3, t4, t5, ix, pid]) with
      | [checkin_day, _, _, _, _, _, index, _] =>
        (pyInt? index).map (fun i => (checkin_day, i))
      | _ => none := by
    simp only [parse_url, notionUrl]
    rw [pySplit_append_sep urlBase _ ':' (by decide) hcolon]
  rw [h1, hsplit]

/-! ### Sample inputs used by witnesses and counterexamples -/

/-- The identity user directory: every name is its own id. -/
def udI : Str → Option Str := fun n => some n

/-- A latest record whose url parses to date token `240603` and index 12. -/
def recParses : LatestRec :=
  ⟨0, "https://www.notion.so/240603-a-b-c-d-e-12-f".toList, "Q".toList⟩

/-- A latest record whose url does not split into eight dash tokens. -/
def recBadUrl : LatestRec := ⟨0, "https://www.notion.so/nodashes".toList, "Q".toList⟩

/-- A latest record whose url parses to sequence index 0. -/
def recIndexZero : LatestRec :=
  ⟨0, "https://www.notion.so/240603-a-b-c-d-e-0-f".toList, "Q".toList⟩

/-! ## Claim theorems -/

/-- Claim C1: for every latest record and every threshold, the cadence
decision in `check_already_made` yields the skip result (no new
document synthesized) exactly when `now - created_at` in whole days is
strictly less than `threshold_days`, regardless of the record's other
fields; and a record created exactly `threshold_days` ago takes the
create branch. -/
theorem c1_cadence_skip_iff (lr : LatestRec) (th now : Int) :
    (check_already_made (some lr) th now = .ok ⟨true, none, none, none, some lr.url⟩ ↔
      (now - lr.created_time).fdiv 86400 < th)
    ∧ ((now - lr.created_time).fdiv 86400 = th →
        check_already_made (some lr) th now =
          match parse_url lr.url with
          | none => .error .valueError
          | some di => .ok ⟨false, some di.1, some di.2, some lr.quarter_id, none⟩) := by
  constructor
  · constructor
    · intro hres
      by_contra hlt
      simp only [check_already_made, if_neg hlt] at hres
      cases hp : parse_url lr.url with
      | none => rw [hp] at hres; exact Except.noConfusion hres
      | some di =>
        obtain ⟨pd, pi⟩ := di
        rw [hp] at hres
        simp at hres
    · intro hlt
      simp only [check_already_made, if_pos hlt]
  · intro heq
    have hnlt : ¬ ((now - lr.created_time).fdiv 86400 < th) := by omega
    simp only [check_already_made, if_neg hnlt]
    cases hp : parse_url lr.url with
    | none => rfl
    | some di => obtain ⟨pd, pi⟩ := di; rfl

/-- Witness for C1: a record created exactly 7 whole days before the
run, with threshold 7, is not skipped and takes the create branch. -/
theorem c1_cadence_skip_iff_witness :
    (check_already_made (some recParses) 7 604800 =
        .ok ⟨true, none, none, none, some recParses.url⟩ ↔
      ((604800 : Int) - recParses.created_time).fdiv 86400 < 7)
    ∧ check_already_made (some recParses) 7 604800 =
        match parse_url recParses.url with
        | none => .error .valueError
        | some di => .ok ⟨false, some di.1, some di.2, some recParses.quarter_id, none⟩ :=
  ⟨(c1_cadence_skip_iff recParses 7 604800).1,
   (c1_cadence_skip_iff recParses 7 604800).2 (by decide)⟩

/-- Claim C2: whenever `create_pages` succeeds for a prior record whose
date token parses to `d0` and whose index is `idx`, the synthesized
record is scheduled on `d0 + 7` days, carries sequence index
`idx + 1` (incremented from the prior index, not recomputed), and its
title embeds exactly these two values. -/
theorem c2_monotonic_sequencing (ud : Str → Option Str) (team : TeamFields)
    (day : Str) (idx : Int) (qtr : Str) (now : Date) (r : Nat) (payload : PagePayload)
    (d0 : Date) (hparse : parseDate6 day = some d0)
    (h : create_pages ud team day idx qtr now r = .ok payload) :
    payload.title = mkTitle team.base_title (fmt6 (addDays 7 d0)) (idx + 1) ∧
    payload.date_start = fmtISO (addDays 7 d0) := by
  simp only [create_pages] at h
  split at h
  · exact Except.noConfusion h
  · split at h
    · rename_i heq
      rw [hparse] at heq
      exact Option.noConfusion heq
    · rename_i d1 heq
      rw [hparse] at heq
      injection heq with heq
      subst heq
      split at h
      · exact Except.noConfusion h
      · split at h
        · exact Except.noConfusion h
        · split at h
          · exact Except.noConfusion h
          · injection h with h
            subst h
            exact ⟨rfl, rfl⟩

/-- The team configuration of scenario B: base title `Team Sync #`,
host `H`, participants `H` and `A`, with `A` blacklisted. -/
def teamB : TeamFields :=
  ⟨"C".toList, "팀".toList, "Team Sync #".toList, "H".toList,
   ["H".toList, "A".toList], ["A".toList]⟩

/-- The payload `create_pages` produces for scenario B on run date
2024-06-13 with the identity user directory. -/
def payloadB : PagePayload :=
  ⟨"[240610] Team Sync #13".toList, "2024-06-10".toList, "2024년 2분기".toList,
   "H".toList, ["H".toList, "A".toList], "H".toList,
   ["OKR".toList, "팀".toList], ["Check-in".toList]⟩

/-- Witness for C2 (scenario B): prior date token `240603`, prior index
12; the created record is titled `[240610] Team Sync #13` and scheduled
on 2024-06-10. -/
theorem c2_monotonic_sequencing_witness :
    payloadB.title = mkTitle teamB.base_title (fmt6 (addDays 7 ⟨2024, 6, 3⟩)) (12 + 1) ∧
    payloadB.date_start = fmtISO (addDays 7 ⟨2024, 6, 3⟩) :=
  c2_monotonic_sequencing udI teamB ("240603".toList) 12 ("Q".toList) ⟨2024, 6, 13⟩ 0
    payloadB ⟨2024, 6, 3⟩ (by decide) (by rfl)

/-- Claim C3 (refuted, code bug): with host `H`, participants
`{H, A}` and exclusions `{A}`, the candidate pool computed at line 130
of `run.py` is `{H}` — the host is never removed — so the created
record's scribe IS the host, contradicting the claim and the code's own
comment at line 128. -/
theorem c3_host_selected_as_scribe :
    create_pages udI teamB ("240603".toList) 12 ("Q".toList) ⟨2024, 6, 13⟩ 0 =
        .ok payloadB ∧
    payloadB.scribe_id = teamB.host ∧ teamB.host ∈ teamB.participation :=
  ⟨rfl, rfl, by decide⟩

/-- A team whose only participant is the host, with no blacklist: the
specification's eligible pool `attendees − exclusions − {host}` is
empty. -/
def teamSolo : TeamFields :=
  ⟨"C".toList, "팀".toList, "Team Sync #".toList, "H".toList, ["H".toList], []⟩

/-- Claim C5 (refuted, code bug): although the specification's pool
`attendees − exclusions − {host}` is empty for `teamSolo`,
`create_pages` does not fail: it produces a request whose scribe is the
host. -/
theorem c5_request_despite_empty_pool :
    specScribePool teamSolo = [] ∧
    ∃ payload,
      create_pages udI teamSolo ("240603".toList) 12 ("Q".toList) ⟨2024, 6, 13⟩ 0 =
          .ok payload ∧
        payload.scribe_id = teamSolo.host :=
  ⟨by decide, ⟨_, rfl, rfl⟩⟩

/-- Claim C6 (refuted, code bug): the created record's period label is
not carried forward from the prior record: `create_pages` ignores its
`latest_quater` argument entirely (first conjunct) and stores
`get_period()` of the run date, which differs from the prior label
(second conjunct), contradicting the docstring at line 118 of
`run.py`. -/
theorem c6_quarter_recomputed :
    (∀ (ud : Str → Option Str) (team : TeamFields) (day : Str) (idx : Int)
        (q q' : Str) (now : Date) (r : Nat),
      create_pages ud team day idx q now r = create_pages ud team day idx q' now r)
    ∧ ∃ payload,
        create_pages udI teamB ("240603".toList) 12 ("2023년 4분기".toList)
            ⟨2024, 6, 13⟩ 0 = .ok payload ∧
          payload.quarter = get_period ⟨2024, 6, 13⟩ ∧
          payload.quarter ≠ "2023년 4분기".toList :=
  ⟨fun _ _ _ _ _ _ _ _ => rfl, ⟨payloadB, rfl, by decide, by decide⟩⟩

/-- Claim C7: when the document service returns no matching record, the
run of that team creates no document and sends the "create the first
check-in document manually" notification. -/
theorem c7_no_prior_record (ud : Str → Option Str) (pp : PagePayload → Str)
    (th : Int) (f : TeamFields) (now_ts : Int) (now_date : Date) (r : Nat) :
    processTeam ud pp th (mkTeamCfg f) none now_ts now_date r =
      .ok (.firstManual (manualMsg f.base_title)) := rfl

/-- Witness for C7 at a concrete team and clock. -/
theorem c7_no_prior_record_witness :
    processTeam udI (fun _ => "url".toList) 7 (mkTeamCfg teamB) none 0 ⟨2024, 6, 13⟩ 0 =
      .ok (.firstManual (manualMsg teamB.base_title)) :=
  c7_no_prior_record udI (fun _ => "url".toList) 7 teamB 0 ⟨2024, 6, 13⟩ 0

/-- The page-creation collaborator used in concrete runs: every created
page gets the url `url`. -/
def ppW : PagePayload → Str := fun _ => "url".toList

/-- A team input whose record url cannot be parsed (and is old enough
to reach the parse). -/
def inputBad : TeamInput := ⟨mkTeamCfg teamB, some recBadUrl, 0⟩

/-- A team input with no prior record, which on its own succeeds. -/
def inputGood : TeamInput := ⟨mkTeamCfg teamB, none, 0⟩

/-- Claim C8 (refuted): a core error in one team does NOT leave the
other teams unaffected.  With a first team whose record url is
malformed and a second team that on its own would succeed, the whole
run aborts with the first team's `ValueError` and produces no outcome
for the second team. -/
theorem c8_error_aborts_other_teams :
    main_loop udI ppW 7 (10 * 86400) ⟨2024, 6, 13⟩ [inputBad, inputGood] =
      .error .valueError ∧
    processTeam udI ppW 7 inputGood.cfg inputGood.doc (10 * 86400) ⟨2024, 6, 13⟩
        inputGood.r = .ok (.firstManual (manualMsg teamB.base_title)) :=
  ⟨rfl, rfl⟩

/-- Claim C8 as amended: the team loop of `main` has no per-team error
handling, so an error raised while processing one team aborts the whole
run — teams after it in the list are not processed at all. -/
theorem c8_error_aborts_run (ud : Str → Option Str) (pp : PagePayload → Str) (th : Int)
    (now_ts : Int) (now_date : Date) (pre post : List TeamInput) (bad : TeamInput)
    (e : PyError) (acts : List TeamAction)
    (hpre : main_loop ud pp th now_ts now_date pre = .ok acts)
    (hbad : processTeam ud pp th bad.cfg bad.doc now_ts now_date bad.r = .error e) :
    main_loop ud pp th now_ts now_date (pre ++ bad :: post) = .error e := by
  induction pre generalizing acts with
  | nil => simp only [List.nil_append, main_loop, hbad]
  | cons t ts ih =>
    rw [List.cons_append]
    simp only [main_loop] at hpre ⊢
    cases hpt : processTeam ud pp th t.cfg t.doc now_ts now_date t.r with
    | error e' => rw [hpt] at hpre; exact Except.noConfusion hpre
    | ok a =>
      rw [hpt] at hpre
      cases hml : main_loop ud pp th now_ts now_date ts with
      | error e' => rw [hml] at hpre; exact Except.noConfusion hpre
      | ok rest => rw [ih rest hml]

/-- Witness for the amended C8: one successful team, then the failing
team, then another team; the run stops at the failure. -/
theorem c8_error_aborts_run_witness :
    main_loop udI ppW 7 (10 * 86400) ⟨2024, 6, 13⟩
        ([inputGood] ++ inputBad :: [inputGood]) = .error .valueError :=
  c8_error_aborts_run udI ppW 7 (10 * 86400) ⟨2024, 6, 13⟩ [inputGood] [inputGood]
    inputBad .valueError [.firstManual (manualMsg teamB.base_title)] rfl rfl

/-- A record url with no six-digit date token anywhere (its only digit
is the single `7`). -/
def urlNoDate : Str := "https://www.notion.so/hello-a-b-c-d-e-7-xyz".toList

/-- Claim C9 (refuted): `parse_url` does not validate any date token:
this url contains no 6-digit token (it has exactly one digit in total),
yet parsing succeeds with `("hello", 7)` instead of failing. -/
theorem c9_parse_accepts_non_date :
    parse_url urlNoDate = some ("hello".toList, 7) ∧
    (urlNoDate.filter (fun c => c.isDigit)).length = 1 := by decide

/-- Claim C9 as amended: parsing checks only the split shape — base url
followed by exactly eight dash-separated tokens with an `int` seventh
token.  On any such url it returns the first token and the `int` of the
seventh (no 6-digit validation of the date token); when the slug has no
dash structure at all it fails (Python `ValueError`, modelled `none`),
and on failure no default index is produced. -/
theorem c9_parse_shape_only :
    (∀ d t1 t2 t3 t4 t5 ix pid : Str,
      (∀ t ∈ [d, t1, t2, t3, t4, t5, ix, pid], ('-') ∉ t ∧ (':') ∉ t) →
      parse_url (notionUrl [d, t1, t2, t3, t4, t5, ix, pid]) =
        (pyInt? ix).map (fun i => (d, i)))
    ∧ (∀ slug : Str, ('-') ∉ slug → (':') ∉ slug →
        parse_url (urlBase ++ slug) = none) := by
  constructor
  · exact parse_url_tokens
  · intro slug hdash hcolon
    have h1 : parse_url (urlBase ++ slug) =
        match pySplit ['-'] slug with
        | [checkin_day, _, _, _, _, _, index, _] =>
          (pyInt? index).map (fun i => (checkin_day, i))
        | _ => none := by
      simp only [parse_url]
      rw [pySplit_append_sep urlBase slug ':' (by decide) hcolon]
    rw [h1, pySplit_single '-' slug hdash]

/-- Witness for the amended C9: a non-date first token still parses;
a dashless slug fails. -/
theorem c9_parse_shape_only_witness :
    parse_url (notionUrl ["hello".toList, "a".toList, "b".toList, "c".toList,
        "d".toList, "e".toList, "12".toList, "xyz".toList]) =
      (pyInt? ("12".toList)).map (fun i => ("hello".toList, i)) ∧
    parse_url (urlBase ++ "foo".toList) = none :=
  ⟨c9_parse_shape_only.1 _ _ _ _ _ _ _ _ (by decide),
   c9_parse_shape_only.2 ("foo".toList) (by decide) (by decide)⟩

/-- Claim C4 (refuted as stated): `parse_url` applied to the formatted
title itself fails — the title has no url base — so
`parse(format(b, d, i))` is not `(d, i)`. -/
theorem c4_parse_of_title_fails :
    parse_url (mkTitle ("Team Sync #".toList) ("240610".toList) 13) ≠
      some ("240610".toList, 13) ∧
    parse_url (mkTitle ("Team Sync #".toList) ("240610".toList) 13) = none := by
  decide

/-- Claim C4 as amended: the codec round-trip holds at the url level:
for every all-digit date token, every sequence index, and every
dash-free and colon-free slug tokens, parsing the record url formed
from them returns exactly the embedded (date token, index) pair. -/
theorem c4_url_roundtrip (d t1 t2 t3 t4 t5 pid : Str) (i : Nat)
    (hd : ∀ c ∈ d, c.isDigit = true)
    (htok : ∀ t ∈ [t1, t2, t3, t4, t5, pid], ('-') ∉ t ∧ (':') ∉ t) :
    parse_url (notionUrl [d, t1, t2, t3, t4, t5, natToStr i, pid]) =
      some (d, (i : Int)) := by
  have hdig : ∀ (s : Str), (∀ c ∈ s, c.isDigit = true) → ('-') ∉ s ∧ (':') ∉ s := by
    intro s hs
    constructor
    · intro hmem; exact absurd (hs _ hmem) (by decide)
    · intro hmem; exact absurd (hs _ hmem) (by decide)
  have hcond : ∀ t ∈ [d, t1, t2, t3, t4, t5, natToStr i, pid],
      ('-') ∉ t ∧ (':') ∉ t := by
    intro t ht
    simp only [List.mem_cons, List.not_mem_nil, or_false] at ht
    rcases ht with rfl | rfl | rfl | rfl | rfl | rfl | rfl | rfl
    · exact hdig _ hd
    · exact htok _ (by simp)
    · exact htok _ (by simp)
    · exact htok _ (by simp)
    · exact htok _ (by simp)
    · exact htok _ (by simp)
    · exact hdig _ (natToStr_all_digit i)
    · exact htok _ (by simp)
  rw [parse_url_tokens d t1 t2 t3 t4 t5 (natToStr i) pid hcond, pyInt?_natToStr]
  rfl

/-- Witness for the amended C4: date token `240610`, index 13, a
Team-Sync-like slug. -/
theorem c4_url_roundtrip_witness :
    parse_url (notionUrl ["240610".toList, "Team".toList, "Sync".toList,
        "check".toList, "in".toList, "doc".toList, natToStr 13, "abc123".toList]) =
      some ("240610".toList, (13 : Int)) :=
  c4_url_roundtrip _ _ _ _ _ _ _ 13 (by decide) (by decide)

/-- Claim C10: when a prior record exists, is at least `threshold_days`
old, and its url parses but to index 0 (or to an empty date token, or
the record's quarter id is empty), Python truthiness makes
`all([latest_checkin_day, latest_index, latest_quater])` false and
`latest_url` is `None`, so the run takes the no-prior-record branch: no
document is created and the "create the first one manually" message is
sent. -/
theorem c10_falsy_fields_manual_branch (ud : Str → Option Str) (pp : PagePayload → Str)
    (th : Int) (f : TeamFields) (lr : LatestRec) (now_ts : Int) (now_date : Date) (r : Nat)
    (d : Str) (i : Int)
    (hage : ¬ ((now_ts - lr.created_time).fdiv 86400 < th))
    (hparse : parse_url lr.url = some (d, i))
    (hfalsy : i = 0 ∨ d = [] ∨ lr.quarter_id = []) :
    processTeam ud pp th (mkTeamCfg f) (some lr) now_ts now_date r =
      .ok (.firstManual (manualMsg f.base_title)) := by
  have hreq : requireFields (mkTeamCfg f) = .ok f := rfl
  have hchk : check_already_made (some lr) th now_ts =
      .ok ⟨false, some d, some i, some lr.quarter_id, none⟩ := by
    simp only [check_already_made, if_neg hage, hparse]
  have hcond : (truthyS (some d) && truthyI (some i) && truthyS (some lr.quarter_id))
      = false := by
    rcases hfalsy with rfl | rfl | hq
    · simp [truthyI]
    · simp [truthyS]
    · rw [hq]; simp [truthyS]
  simp only [processTeam, hreq, hchk, hcond]
  simp [truthyS]

/-- Witness for C10: a ten-day-old record whose url parses to index 0
leads to the manual-creation branch. -/
theorem c10_falsy_fields_manual_branch_witness :
    processTeam udI ppW 7 (mkTeamCfg teamB) (some recIndexZero) (10 * 86400)
        ⟨2024, 6, 13⟩ 0 = .ok (.firstManual (manualMsg teamB.base_title)) :=
  c10_falsy_fields_manual_branch udI ppW 7 teamB recIndexZero (10 * 86400)
    ⟨2024, 6, 13⟩ 0 ("240603".toList) 0 (by decide) (by decide) (Or.inl rfl)

end Checkin
